import Mathlib

/-!
A verification development for `rinexamine.py`, a RINEX observation-file
examiner.  The Python source is shallowly embedded: strings are `List Char`,
Python `float` values are exact rationals (`ℚ`), `datetime` objects are a
`Timestamp` structure whose smart constructor enforces Python's `datetime`
range checks, and the mutable dictionaries threaded through the two parsing
loops are Lean structures updated functionally.  Every definition follows the
corresponding Python function line by line; spec-side restatements (used to
compare code behaviour with the documented behaviour) are clearly marked.
-/

/-! ## Python string primitives

Characters are modelled over the ASCII range, which is the alphabet RINEX
files and the relevant Python string tests (`isalpha`, `isdigit`, `lower`)
operate on in this program. -/

/-- Whitespace characters removed by Python's `str.strip()` / `str.split()`. -/
def pySpace (c : Char) : Bool :=
  c = ' ' || c = '\t' || c = '\n' || c = '\r' || c = '\x0b' || c = '\x0c'

/-- Python `str.strip()`: remove leading and trailing whitespace. -/
def pyStrip (s : List Char) : List Char :=
  ((s.dropWhile pySpace).reverse.dropWhile pySpace).reverse

/-- Helper for `pySplit`: accumulate the current token (in reverse). -/
def pySplitAux : List Char → List Char → List (List Char)
  | [], acc => if acc.isEmpty then [] else [acc.reverse]
  | c :: rest, acc =>
      if pySpace c then
        if acc.isEmpty then pySplitAux rest [] else acc.reverse :: pySplitAux rest []
      else pySplitAux rest (c :: acc)

/-- Python `str.split()` with no arguments: split on whitespace runs,
discarding empty tokens. -/
def pySplit (s : List Char) : List (List Char) :=
  pySplitAux s []

/-- Python `str.isdigit()` (ASCII digits): nonempty and all digits. -/
def pyIsdigit (s : List Char) : Bool :=
  !s.isEmpty && s.all Char.isDigit

/-- Python `str.isalpha()` (ASCII letters): nonempty and all alphabetic. -/
def pyIsalpha (s : List Char) : Bool :=
  !s.isEmpty && s.all Char.isAlpha

/-- Boolean list-prefix test (used to build the substring test below). -/
def isPrefixL : List Char → List Char → Bool
  | [], _ => true
  | _ :: _, [] => false
  | a :: as, b :: bs => a = b && isPrefixL as bs

/-- Python's `pat in s` substring test on strings. -/
def listContains (pat : List Char) : List Char → Bool
  | [] => isPrefixL pat []
  | c :: rest => isPrefixL pat (c :: rest) || listContains pat rest

/-- Python `s.endswith(pat)`. -/
def endsWithL (pat s : List Char) : Bool :=
  isPrefixL pat.reverse s.reverse

/-- Python `str.lower()` restricted to ASCII (`A`-`Z` map to `a`-`z`). -/
def pyLower (s : List Char) : List Char :=
  s.map Char.toLower

/-- Python `' '.join(parts)`. -/
def joinSpace : List (List Char) → List Char
  | [] => []
  | [t] => t
  | t :: rest => t ++ ' ' :: joinSpace rest

/-! ## Python numeric literal parsing

`int()` and `float()` are modelled on their exact decimal semantics.  A
parsed float is kept as a sign / decimal-mantissa / power-of-ten triple so
that its exact rational value is recovered by `floatPartsVal`; this is the
value semantics of the decimal literals the program reads (`inf`, `nan` and
underscore separators, which never occur in RINEX numeric fields, are not
modelled and map to a parse failure). -/

/-- Digit value of an ASCII digit character. -/
def digitVal (c : Char) : ℕ := c.toNat - 48

/-- Value of a nonempty all-digit string. -/
def digitsToNat (s : List Char) : ℕ :=
  s.foldl (fun a c => 10 * a + digitVal c) 0

/-- Python `int(s)`: strip whitespace, optional sign, then decimal digits.
`none` models a raised `ValueError`. -/
def pyInt (s : List Char) : Option ℤ :=
  let t := pyStrip s
  match t with
  | '+' :: r => if pyIsdigit r then some (digitsToNat r) else none
  | '-' :: r => if pyIsdigit r then some (-(digitsToNat r : ℤ)) else none
  | r => if pyIsdigit r then some (digitsToNat r) else none

/-- Exact decimal components of a parsed Python float: `neg` is the sign,
`mant` the digits of the mantissa read as an integer, and `exp` the power of
ten scaling it. -/
structure FloatParts where
  neg : Bool
  mant : ℕ
  exp : ℤ
deriving DecidableEq, Repr

/-- Split a mantissa at the first `.`; returns integer digits and, when a
point is present, the fraction digits. -/
def splitPoint : List Char → List Char → (List Char × Option (List Char))
  | [], acc => (acc.reverse, none)
  | '.' :: rest, acc => (acc.reverse, some rest)
  | c :: rest, acc => splitPoint rest (c :: acc)

/-- Split off an exponent part at the first `e`/`E`. -/
def splitExp : List Char → List Char → (List Char × Option (List Char))
  | [], acc => (acc.reverse, none)
  | 'e' :: rest, acc => (acc.reverse, some rest)
  | 'E' :: rest, acc => (acc.reverse, some rest)
  | c :: rest, acc => splitExp rest (c :: acc)

/-- Parse the exponent field of a float literal. -/
def parseExpField : List Char → Option ℤ
  | '+' :: r => if pyIsdigit r then some (digitsToNat r) else none
  | '-' :: r => if pyIsdigit r then some (-(digitsToNat r : ℤ)) else none
  | r => if pyIsdigit r then some (digitsToNat r) else none

/-- Parse a Python float literal into its exact decimal components. -/
def pyFloatParts (s : List Char) : Option FloatParts :=
  let t := pyStrip s
  let (neg, u) : Bool × List Char :=
    match t with
    | '+' :: r => (false, r)
    | '-' :: r => (true, r)
    | r => (false, r)
  let (mantPart, expPart) := splitExp u []
  let (ip, fpOpt) := splitPoint mantPart []
  let fp := fpOpt.getD []
  if !(ip.all Char.isDigit) || !(fp.all Char.isDigit) then none
  else if ip.isEmpty && fp.isEmpty then none
  else if ip.isEmpty && fpOpt.isNone then none
  else
    match expPart with
    | none => some ⟨neg, digitsToNat ip * 10 ^ fp.length + digitsToNat fp, -(fp.length : ℤ)⟩
    | some e =>
        match parseExpField e with
        | none => none
        | some ev =>
            some ⟨neg, digitsToNat ip * 10 ^ fp.length + digitsToNat fp, ev - fp.length⟩

/-- Exact rational value of parsed float components. -/
def floatPartsVal (p : FloatParts) : ℚ :=
  (if p.neg then -1 else 1) * (p.mant : ℚ) * (10 : ℚ) ^ p.exp

/-- Python `float(s)` as an exact rational.  `none` models `ValueError`. -/
def pyFloat (s : List Char) : Option ℚ :=
  (pyFloatParts s).map floatPartsVal

/-- Python `int(x)` on a float: truncation toward zero. -/
def truncZ (q : ℚ) : ℤ :=
  if q < 0 then -⌊-q⌋ else ⌊q⌋

/-! ## `detect_file_type` (CompressionClassifier)

Direct translation of `RINEXExaminer.detect_file_type`.  The compression
kind is returned as the exact string the Python code produces
(`"hatanaka"`, `"hatanaka+gz"`, `"gzip"`, `"compress"`, `"bzip2"`, `"zip"`,
`"none"`); the spec's enum name `hatanaka_gz` denotes the `"hatanaka+gz"`
string. -/

/-- Match of the regular expression `\.\d{2}d$` (dot, two digits, `d` at the
end of the string). -/
def matchTwoDigitD (s : List Char) : Bool :=
  match s.reverse with
  | 'd' :: c2 :: c1 :: '.' :: _ => c1.isDigit && c2.isDigit
  | _ => false

/-- Match of the regular expression `\.\d{2}d\.gz$`. -/
def matchTwoDigitDGz (s : List Char) : Bool :=
  match s.reverse with
  | 'z' :: 'g' :: '.' :: 'd' :: c2 :: c1 :: '.' :: _ => c1.isDigit && c2.isDigit
  | _ => false

/-- Translation of `detect_file_type(filepath)`:
returns `(is_compressed, compression_type, needs_hatanaka)`. -/
def detect_file_type (filepath : List Char) : Bool × List Char × Bool :=
  let filename := pyLower filepath
  if endsWithL (".crx".data) filename || matchTwoDigitD filename then
    (true, "hatanaka".data, true)
  else if endsWithL (".gz".data) filename then
    if listContains (".crx.gz".data) filename || matchTwoDigitDGz filename then
      (true, "hatanaka+gz".data, true)
    else
      (true, "gzip".data, false)
  else if endsWithL (".z".data) filename then
    (true, "compress".data, true)
  else if endsWithL (".bz2".data) filename then
    (true, "bzip2".data, true)
  else if endsWithL (".zip".data) filename then
    (true, "zip".data, true)
  else
    (false, "none".data, false)

/-! Case-insensitivity support: ASCII lowering is idempotent. -/

theorem charToNat_ofNat_valid {n : ℕ} (h : n.isValidChar) :
    (Char.ofNat n).toNat = n := by
  rw [Char.ofNat, dif_pos h]
  rfl

theorem charToLower_toLower (c : Char) : c.toLower.toLower = c.toLower := by
  show Char.toLower (Char.toLower c) = Char.toLower c
  unfold Char.toLower
  by_cases h : c.toNat ≥ 65 ∧ c.toNat ≤ 90
  · have hv : (c.toNat + 32).isValidChar := by
      left
      omega
    have hof : (Char.ofNat (c.toNat + 32)).toNat = c.toNat + 32 :=
      charToNat_ofNat_valid hv
    rw [if_pos h, if_neg]
    rw [hof]
    omega
  · rw [if_neg h, if_neg h]

theorem pyLower_idem (s : List Char) : pyLower (pyLower s) = pyLower s := by
  unfold pyLower
  rw [List.map_map]
  apply List.map_congr_left
  intro c _
  exact charToLower_toLower c

/-- C3: `detect_file_type` is a pure, case-insensitive function of the
filename (lowering the filename first never changes the result), and on the
golden inputs it returns:
`"site.24o"` ↦ `(false, "none", false)`;
`"site.24d"` ↦ `(true, "hatanaka", true)`;
`"site.crx.gz"` ↦ `(true, "hatanaka+gz", true)` (the spec's `hatanaka_gz`);
`"site.rnx.gz"` ↦ `(true, "gzip", false)`;
`"site.Z"` ↦ `(true, "compress", true)`.
As a total Lean function of the filename alone it performs no I/O and raises
no exceptions. -/
theorem detect_file_type_spec :
    (∀ s : List Char, detect_file_type (pyLower s) = detect_file_type s) ∧
    detect_file_type ("site.24o".data) = (false, "none".data, false) ∧
    detect_file_type ("site.24d".data) = (true, "hatanaka".data, true) ∧
    detect_file_type ("site.crx.gz".data) = (true, "hatanaka+gz".data, true) ∧
    detect_file_type ("site.rnx.gz".data) = (true, "gzip".data, false) ∧
    detect_file_type ("site.Z".data) = (true, "compress".data, true) := by
  refine ⟨fun s => ?_, by decide, by decide, by decide, by decide, by decide⟩
  unfold detect_file_type
  rw [pyLower_idem]

/-! ## `datetime` model

Python `datetime(year, month, day, hour, minute, second)` with the value
ranges it enforces (`ValueError` outside them, modelled as `none`). -/

/-- A validated Python `datetime` value (microseconds are always 0 in this
program because seconds are truncated with `int(...)`). -/
structure Timestamp where
  year : ℕ
  month : ℕ
  day : ℕ
  hour : ℕ
  minute : ℕ
  second : ℕ
deriving DecidableEq, Repr

/-- Gregorian leap-year test. -/
def isLeap (y : ℕ) : Bool :=
  y % 4 = 0 && (y % 100 ≠ 0 || y % 400 = 0)

/-- Days in a month of a given year. -/
def daysInMonth (y m : ℕ) : ℕ :=
  match m with
  | 1 => 31
  | 2 => if isLeap y then 29 else 28
  | 3 => 31
  | 4 => 30
  | 5 => 31
  | 6 => 30
  | 7 => 31
  | 8 => 31
  | 9 => 30
  | 10 => 31
  | 11 => 30
  | 12 => 31
  | _ => 0

/-- Python `datetime(...)` constructor: `none` models the `ValueError` raised
for out-of-range fields. -/
def mkDatetime (y mo d h mi s : ℤ) : Option Timestamp :=
  if 1 ≤ y ∧ y ≤ 9999 ∧ 1 ≤ mo ∧ mo ≤ 12 ∧
     1 ≤ d ∧ d ≤ (daysInMonth y.toNat mo.toNat : ℤ) ∧
     0 ≤ h ∧ h ≤ 23 ∧ 0 ≤ mi ∧ mi ≤ 59 ∧ 0 ≤ s ∧ s ≤ 59 then
    some ⟨y.toNat, mo.toNat, d.toNat, h.toNat, mi.toNat, s.toNat⟩
  else none

/-- Days before January 1 of year `y` in the proleptic Gregorian calendar
(Python `datetime.toordinal` arithmetic). -/
def daysBeforeYear (y : ℕ) : ℕ :=
  365 * (y - 1) + (y - 1) / 4 - (y - 1) / 100 + (y - 1) / 400

/-- Days before the first of month `m` in year `y`. -/
def daysBeforeMonth (y m : ℕ) : ℕ :=
  (match m with
   | 1 => 0
   | 2 => 31
   | 3 => 59
   | 4 => 90
   | 5 => 120
   | 6 => 151
   | 7 => 181
   | 8 => 212
   | 9 => 243
   | 10 => 273
   | 11 => 304
   | 12 => 334
   | _ => 0) + (if 3 ≤ m && isLeap y then 1 else 0)

/-- Python `datetime.toordinal()`: proleptic Gregorian day number. -/
def toOrdinal (t : Timestamp) : ℕ :=
  daysBeforeYear t.year + daysBeforeMonth t.year t.month + t.day

/-- Seconds since the calendar origin; differences of this function are the
exact values of Python's `(a - b).total_seconds()` for the (whole-second)
timestamps this program builds. -/
def toSecs (t : Timestamp) : ℤ :=
  86400 * (toOrdinal t : ℤ) + 3600 * t.hour + 60 * t.minute + t.second

/-! Decimal rendering helpers for `strftime` and f-string formats. -/

/-- Decimal digits of a natural number (fuel-based to keep kernel
reduction available). -/
def natDigitsAux : ℕ → ℕ → List Char → List Char
  | 0, _, acc => acc
  | fuel + 1, n, acc =>
      if n < 10 then Nat.digitChar n :: acc
      else natDigitsAux fuel (n / 10) (Nat.digitChar (n % 10) :: acc)

/-- Decimal rendering of a natural number. -/
def natDigits (n : ℕ) : List Char :=
  natDigitsAux (n + 1) n []

/-- Zero-padded two-digit rendering (`%02d`). -/
def pad2 (n : ℕ) : List Char :=
  if n < 10 then '0' :: natDigits n else natDigits n

/-- Zero-padded four-digit rendering (`%04d`, the `strftime` `%Y` field). -/
def pad4 (n : ℕ) : List Char :=
  if n < 10 then '0' :: '0' :: '0' :: natDigits n
  else if n < 100 then '0' :: '0' :: natDigits n
  else if n < 1000 then '0' :: natDigits n
  else natDigits n

/-- Python `t.strftime("%Y-%m-%d %H:%M:%S")`. -/
def renderTimestamp (t : Timestamp) : List Char :=
  pad4 t.year ++ '-' :: pad2 t.month ++ '-' :: pad2 t.day ++
    ' ' :: pad2 t.hour ++ ':' :: pad2 t.minute ++ ':' :: pad2 t.second

/-- Round a nonnegative rational to the nearest integer, ties to even
(the rounding used by `f"{v:.3f}"` on exactly representable values). -/
def roundHalfEven (r : ℚ) : ℤ :=
  let fl := ⌊r⌋
  let frac := r - fl
  if frac < 1/2 then fl
  else if 1/2 < frac then fl + 1
  else if fl % 2 = 0 then fl else fl + 1

/-- Zero-padded three-digit rendering of the thousandths part. -/
def pad3 (n : ℕ) : List Char :=
  if n < 10 then '0' :: '0' :: natDigits n
  else if n < 100 then '0' :: natDigits n
  else natDigits n

/-- Python `f"{v:.3f}"` on exact rational values. -/
def format3 (q : ℚ) : List Char :=
  if q < 0 then
    '-' :: format3core (-q)
  else format3core q
where
  /-- Render a nonnegative rational with three decimals. -/
  format3core (r : ℚ) : List Char :=
    let n := (roundHalfEven (r * 1000)).toNat
    natDigits (n / 1000) ++ '.' :: pad3 (n % 1000)

/-! ## `xyz_to_latlon` (GeodeticConverter)

The Python function computes with `math` double-precision transcendental
functions; its exact mathematical content is embedded over `ℝ` (these
definitions are necessarily noncomputable, so the claim about this function
is a structural refinement rather than a concrete evaluation). -/

/-- Two-argument arctangent, the mathematical function computed by Python's
`math.atan2(y, x)`. -/
noncomputable def atan2 (y x : ℝ) : ℝ :=
  if 0 < x then Real.arctan (y / x)
  else if x < 0 ∧ 0 ≤ y then Real.arctan (y / x) + Real.pi
  else if x < 0 ∧ y < 0 then Real.arctan (y / x) - Real.pi
  else if x = 0 ∧ 0 < y then Real.pi / 2
  else if x = 0 ∧ y < 0 then -(Real.pi / 2)
  else 0

/-- One pass of the latitude refinement loop body in `xyz_to_latlon`. -/
noncomputable def latStep (a e2 z p : ℝ) (lat : ℝ) : ℝ :=
  let sin_lat := Real.sin lat
  let N := a / Real.sqrt (1 - e2 * sin_lat * sin_lat)
  atan2 (z + e2 * N * sin_lat) p

/-- Translation of `xyz_to_latlon(x, y, z)`: returns
`(latitude degrees, longitude degrees, elevation meters)`. -/
noncomputable def xyz_to_latlon (x y z : ℝ) : ℝ × ℝ × ℝ :=
  let a : ℝ := 6378137.0
  let f : ℝ := 1 / 298.257223563
  let e2 : ℝ := 2 * f - f * f
  let lon := atan2 y x * 180.0 / Real.pi
  let p := Real.sqrt (x * x + y * y)
  let lat0 := atan2 z (p * (1 - e2))
  let lat := (latStep a e2 z p)^[5] lat0
  let sin_lat := Real.sin lat
  let N := a / Real.sqrt (1 - e2 * sin_lat * sin_lat)
  let elev := p / Real.cos lat - N
  (lat * 180.0 / Real.pi, lon, elev)

/-- Modelled from the spec's description of GeodeticConverter (§4.2): the
same quantities written exactly as the specification words them, used to
check the code against the documented algorithm. -/
noncomputable def geodeticSpecDescription (x y z : ℝ) : ℝ × ℝ × ℝ :=
  let a : ℝ := 6378137.0
  let f : ℝ := 1 / 298.257223563
  let e2 : ℝ := 2 * f - f * f
  let p := Real.sqrt (x * x + y * y)
  let latInit := atan2 z (p * (1 - e2))
  let refine : ℝ → ℝ := fun lat =>
    atan2 (z + e2 * (a / Real.sqrt (1 - e2 * Real.sin lat * Real.sin lat)) * Real.sin lat) p
  let lat := refine (refine (refine (refine (refine latInit))))
  let Nfinal := a / Real.sqrt (1 - e2 * Real.sin lat * Real.sin lat)
  (lat * 180.0 / Real.pi, atan2 y x * 180.0 / Real.pi, p / Real.cos lat - Nfinal)

/-- C9: for every ECEF input, `xyz_to_latlon` computes longitude as
`atan2(y, x)` in degrees, initializes latitude from `atan2(z, p(1-e²))` with
`p = sqrt(x²+y²)` and `e² = 2f - f²`, refines latitude by exactly five fixed
iterations of `N = a/sqrt(1-e²sin²lat)`, `lat = atan2(z+e²N sin lat, p)`
(a fixed iteration count, not a convergence-threshold loop), and finally sets
elevation to `p/cos(lat) - N` with the final `N`: the code agrees with the
spec's algorithm description at every input. -/
theorem xyz_to_latlon_follows_spec (x y z : ℝ) :
    xyz_to_latlon x y z = geodeticSpecDescription x y z := by
  unfold xyz_to_latlon geodeticSpecDescription latStep
  simp only [Function.iterate_succ, Function.iterate_zero, Function.comp_apply, id]

/-! ## `parse_rinex_header` (HeaderParser)

The mutable dictionary `data` is a structure; every `'Unknown'`-style
sentinel is kept as the literal string.  The transient dictionary key
`'_last_obs_system'` is the `lastObsSystem : Option _` field (`none` models
"key absent").  The ordered-insertion mapping `observation_types` is an
association list with Python-`dict` update semantics.  The `APPROX POSITION
XYZ` handler calls `self.xyz_to_latlon` and renders the result with an
f-string inside a `try`; that float computation is abstracted as the
`conv` parameter (`conv x y z = none` models an exception anywhere inside
the `try` body after the three floats parsed, `some s` the rendered
position string). -/

/-- Python list slice `xs[s:e]` with its negative-index adjustment. -/
def pySlice (s e : ℤ) (xs : List (List Char)) : List (List Char) :=
  let n : ℤ := xs.length
  let s' := (if s < 0 then max 0 (n + s) else min s n).toNat
  let e' := (if e < 0 then max 0 (n + e) else min e n).toNat
  (xs.take e').drop s'

/-- Python `dict` assignment `m[k] = v`: replace in place, else append. -/
def dictSet (k : List Char) (v : List (List Char)) :
    List (List Char × List (List Char)) → List (List Char × List (List Char))
  | [] => [(k, v)]
  | (k', v') :: rest =>
      if k' = k then (k, v) :: rest else (k', v') :: dictSet k v rest

/-- Python `k in m` on the association list. -/
def dictMem (k : List Char) : List (List Char × List (List Char)) → Bool
  | [] => false
  | (k', _) :: rest => k' = k || dictMem k rest

/-- Python `m[k]` lookup. -/
def dictGet (k : List Char) : List (List Char × List (List Char)) → Option (List (List Char))
  | [] => none
  | (k', v) :: rest => if k' = k then some v else dictGet k rest

/-- Python `m[k].extend(ts)` (guarded by membership at the call site). -/
def dictExtend (k : List Char) (ts : List (List Char)) :
    List (List Char × List (List Char)) → List (List Char × List (List Char))
  | [] => []
  | (k', v) :: rest =>
      if k' = k then (k', v ++ ts) :: rest else (k', v) :: dictExtend k ts rest

/-- Python `set.add` on a set represented as a duplicate-free list. -/
def setAdd (x : List Char) (s : List (List Char)) : List (List Char) :=
  if x ∈ s then s else s ++ [x]

/-- Python `set.add` for single characters. -/
def setAddChar (x : Char) (s : List Char) : List Char :=
  if x ∈ s then s else s ++ [x]

/-- The header dictionary built by `parse_rinex_header`. -/
structure HeaderData where
  version : List Char
  file_type : List Char
  satellite_system : List Char
  observation_types : List (List Char × List (List Char))
  antenna_type : List Char
  antenna_height : List Char
  antenna_delta : List Char
  approx_position : List Char
  lat_lon_elev : List Char
  interval : List Char
  time_first_obs : List Char
  time_last_obs : List Char
  leap_seconds : List Char
  constellations_obs : List (List Char)
  constellations_nav : List (List Char)
  marker_name : List Char
  marker_number : List Char
  marker_type : List Char
  observer : List Char
  agency : List Char
  receiver_number : List Char
  receiver_type : List Char
  receiver_version : List Char
  antenna_number : List Char
  lastObsSystem : Option (List Char)
deriving DecidableEq, Repr

/-- The initial `data` dictionary of `parse_rinex_header`. -/
def initHeaderData : HeaderData where
  version := "Unknown".data
  file_type := "Unknown".data
  satellite_system := "Unknown".data
  observation_types := []
  antenna_type := "Unknown".data
  antenna_height := "Unknown".data
  antenna_delta := "Unknown".data
  approx_position := "Unknown".data
  lat_lon_elev := "Not calculated".data
  interval := "Unknown".data
  time_first_obs := "Unknown".data
  time_last_obs := "Unknown".data
  leap_seconds := "Unknown".data
  constellations_obs := []
  constellations_nav := []
  marker_name := "Unknown".data
  marker_number := "Unknown".data
  marker_type := "Unknown".data
  observer := "Unknown".data
  agency := "Unknown".data
  receiver_number := "Unknown".data
  receiver_type := "Unknown".data
  receiver_version := "Unknown".data
  antenna_number := "Unknown".data
  lastObsSystem := none

/-- The attempted position conversion in the `APPROX POSITION XYZ` handler:
parse the content into floats, require exactly three, then convert and
render via `conv`.  A `none` anywhere models the `except: pass`. -/
def tryPosition (conv : ℚ → ℚ → ℚ → Option (List Char)) (content : List Char) :
    Option (List Char) :=
  match (pySplit content).mapM pyFloat with
  | none => none
  | some coords =>
      match coords with
      | [cx, cy, cz] => conv cx cy cz
      | _ => none

/-- The body of the header loop for one retained line: the `elif` chain of
`parse_rinex_header` dispatching on label substrings (the `END OF HEADER`
break is handled by the caller). -/
def handleHeaderLine (conv : ℚ → ℚ → ℚ → Option (List Char))
    (d : HeaderData) (label content : List Char) : HeaderData :=
  if listContains ("RINEX VERSION".data) label then
    let parts := pySplit content
    if parts.length ≥ 2 then
      let d := { d with version := parts[0]!, file_type := parts[1]! }
      if parts.length ≥ 3 then { d with satellite_system := parts[2]! } else d
    else d
  else if listContains ("MARKER NAME".data) label then
    { d with marker_name := content }
  else if listContains ("MARKER NUMBER".data) label then
    { d with marker_number := content }
  else if listContains ("MARKER TYPE".data) label then
    { d with marker_type := content }
  else if listContains ("OBSERVER / AGENCY".data) label then
    let parts := pySplit content
    let d := if parts.length ≥ 1 then { d with observer := parts[0]! } else d
    if parts.length ≥ 2 then { d with agency := joinSpace (parts.drop 1) } else d
  else if listContains ("REC # / TYPE / VERS".data) label then
    let parts := pySplit content
    let d := if parts.length ≥ 1 then { d with receiver_number := parts[0]! } else d
    let d := if parts.length ≥ 2 then { d with receiver_type := parts[1]! } else d
    if parts.length ≥ 3 then { d with receiver_version := parts[2]! } else d
  else if listContains ("ANT # / TYPE".data) label || listContains ("ANTENNA TYPE".data) label then
    let parts := pySplit content
    if parts.length ≥ 1 then
      if parts.length ≥ 2 && !(pyIsalpha parts[0]!) then
        { d with antenna_number := parts[0]!, antenna_type := joinSpace (parts.drop 1) }
      else
        { d with antenna_type := content }
    else d
  else if listContains ("ANTENNA: DELTA H/E/N".data) label ||
      listContains ("ANTENNA DELTA".data) label then
    let parts := pySplit content
    let d := if parts.length ≥ 1 then { d with antenna_height := parts[0]! } else d
    if parts.length ≥ 3 then
      { d with antenna_delta :=
          "H:".data ++ parts[0]! ++ " E:".data ++ parts[1]! ++ " N:".data ++ parts[2]! }
    else d
  else if listContains ("APPROX POSITION XYZ".data) label then
    let d := { d with approx_position := content }
    match tryPosition conv content with
    | some rendered => { d with lat_lon_elev := rendered }
    | none => d
  else if listContains ("INTERVAL".data) label then
    { d with interval := content }
  else if listContains ("TIME OF FIRST OBS".data) label then
    { d with time_first_obs := content }
  else if listContains ("TIME OF LAST OBS".data) label then
    { d with time_last_obs := content }
  else if listContains ("LEAP SECONDS".data) label then
    { d with leap_seconds := content }
  else if listContains ("SYS / # / OBS TYPES".data) label then
    let parts := pySplit content
    if parts.length ≥ 2 then
      if ((parts[0]!).headD ' ').isAlpha && (parts[0]!).length == 1 then
        match pyInt parts[1]! with
        | some _ =>
            { d with observation_types := dictSet parts[0]! (parts.drop 2) d.observation_types,
                     constellations_obs := setAdd parts[0]! d.constellations_obs,
                     lastObsSystem := some parts[0]! }
        | none => d
      else
        match d.lastObsSystem with
        | some sys =>
            if dictMem sys d.observation_types then
              { d with observation_types := dictExtend sys parts d.observation_types }
            else d
        | none => d
    else d
  else if listContains ("TYPES OF OBSERV".data) label then
    let parts := pySplit content
    if parts.length ≥ 1 then
      match pyInt parts[0]! with
      | some n =>
          { d with observation_types :=
              dictSet ("ALL".data) (pySlice 1 (1 + n) parts) d.observation_types }
      | none => d
    else d
  else d

/-- The header scan loop: skip short lines, stop at the first line whose
label contains `END OF HEADER`, otherwise dispatch on the label. -/
def scanHeaderLines (conv : ℚ → ℚ → ℚ → Option (List Char)) :
    HeaderData → List (List Char) → HeaderData
  | d, [] => d
  | d, line :: rest =>
      if line.length < 60 then scanHeaderLines conv d rest
      else
        let label := pyStrip (line.drop 60)
        let content := pyStrip (line.take 60)
        if listContains ("END OF HEADER".data) label then d
        else scanHeaderLines conv (handleHeaderLine conv d label content) rest

/-- Translation of `parse_rinex_header(lines)`: run the scan from the
initial dictionary, then delete the transient `'_last_obs_system'` key. -/
def parse_rinex_header (conv : ℚ → ℚ → ℚ → Option (List Char))
    (lines : List (List Char)) : HeaderData :=
  { scanHeaderLines conv initHeaderData lines with lastObsSystem := none }

/-! ## `parse_observation_data` (ObservationScanner + IntervalAnalyzer)

Direct translation of `parse_observation_data(lines, header_data)` (the
`header_data` argument is accepted by the Python function but never used).
The v3 epoch branch increments the epoch counter and sets the in-epoch flag
before its `try` block; the v2 branch does both inside the `try` after the
timestamp was constructed — faithfully reproduced below. -/

/-- Python slice `l[s:e]` on characters (nonnegative indices). -/
def sliceChars (s e : ℕ) (l : List Char) : List Char :=
  (l.take e).drop s

/-- The timestamp extraction attempted inside the v3 `try` block:
`parts = line.split()`, require at least 7 tokens, integer fields 1-5,
float seconds field 6 truncated with `int(...)`, then `datetime(...)`.
`none` is both the "fewer than 7 tokens" fall-through and a raised
exception (the two have identical state effects in the source). -/
def v3Parse (line : List Char) : Option Timestamp :=
  let parts := pySplit line
  if parts.length ≥ 7 then
    match pyInt parts[1]!, pyInt parts[2]!, pyInt parts[3]!,
        pyInt parts[4]!, pyInt parts[5]!, pyFloat parts[6]! with
    | some y, some mo, some dd, some h, some mi, some sec =>
        mkDatetime y mo dd h mi (truncZ sec)
    | _, _, _, _, _, _ => none
  else none

/-- The v2 epoch-header recognition test:
`len(line) > 29 and line[0] == ' ' and line[1:3].strip().isdigit()`. -/
def isV2EpochLine (line : List Char) : Bool :=
  line.length > 29 && isPrefixL [' '] line && pyIsdigit (pyStrip (sliceChars 1 3 line))

/-- The fixed-column timestamp extraction inside the v2 `try` block, with
the two-digit-year mapping `year + 1900 if year >= 80 else year + 2000`. -/
def v2Parse (line : List Char) : Option Timestamp :=
  match pyInt (sliceChars 1 3 line), pyInt (sliceChars 4 6 line),
      pyInt (sliceChars 7 9 line), pyInt (sliceChars 10 12 line),
      pyInt (sliceChars 13 15 line), pyFloat (sliceChars 16 26 line) with
  | some y0, some mo, some dd, some h, some mi, some sec =>
      let y := if y0 ≥ 80 then y0 + 1900 else y0 + 2000
      mkDatetime y mo dd h mi (truncZ sec)
  | _, _, _, _, _, _ => none

/-- Mutable state of the observation scan loop. -/
structure ObsState where
  in_epoch : Bool
  first : Option Timestamp
  last : Option Timestamp
  epoch_count : ℕ
  epoch_times : List Timestamp
  constellations : List Char
deriving DecidableEq, Repr

/-- Initial observation-scan state. -/
def initObsState : ObsState :=
  ⟨false, none, none, 0, [], []⟩

/-- Successful-epoch bookkeeping shared by both branches: append to the
first-100 timestamp buffer, set first-seen once, always update last-seen. -/
def recordEpoch (st : ObsState) (t : Timestamp) : ObsState :=
  { st with
    epoch_times := if st.epoch_times.length < 100 then st.epoch_times ++ [t] else st.epoch_times,
    first := if st.first.isNone then some t else st.first,
    last := some t }

/-- One iteration of the body loop of `parse_observation_data`. -/
def obsStep (st : ObsState) (line : List Char) : ObsState :=
  if isPrefixL ['>'] line then
    let st := { st with in_epoch := true, epoch_count := st.epoch_count + 1 }
    match v3Parse line with
    | some t => recordEpoch st t
    | none => st
  else if isV2EpochLine line then
    match v2Parse line with
    | some t =>
        { recordEpoch { st with epoch_count := st.epoch_count + 1 } t with in_epoch := true }
    | none => st
  else if st.in_epoch && line.length > 3 then
    let sat_id := pyStrip (line.take 3)
    if sat_id.length ≥ 2 && (sat_id.headD ' ').isAlpha then
      { st with constellations := setAddChar (sat_id.headD ' ') st.constellations }
    else st
  else st

/-- The observation scan loop over the body lines. -/
def scanBody (st : ObsState) : List (List Char) → ObsState
  | [] => st
  | line :: rest => scanBody (obsStep st line) rest

/-- The `header_end` search of `parse_observation_data`: index one past the
first line containing `END OF HEADER` anywhere in the line, `0` when no
line contains it. -/
def headerEndAux : ℕ → List (List Char) → ℕ
  | _, [] => 0
  | i, l :: rest =>
      if listContains ("END OF HEADER".data) l then i + 1 else headerEndAux (i + 1) rest

/-- `header_end` over a whole file. -/
def headerEnd (lines : List (List Char)) : ℕ :=
  headerEndAux 0 lines

/-- The lines the observation scanner iterates over: `lines[header_end:]`. -/
def bodyLines (lines : List (List Char)) : List (List Char) :=
  lines.drop (headerEnd lines)

/-- Consecutive epoch deltas retained by the plausibility window
`0.001 <= interval <= 3600` (source loop over `range(len-1)` with the
in-loop filter). -/
def intervalsOf : List Timestamp → List ℚ
  | a :: b :: rest =>
      let iv : ℚ := ((toSecs b - toSecs a : ℤ) : ℚ)
      if (0.001 : ℚ) ≤ iv ∧ iv ≤ 3600 then iv :: intervalsOf (b :: rest)
      else intervalsOf (b :: rest)
  | _ => []

/-- Python `min` over a nonempty list (`0` stands for the unreachable
empty case, which the source guards against). -/
def listMin : List ℚ → ℚ
  | [] => 0
  | x :: xs => xs.foldl min x

/-- Python `max` over a nonempty list. -/
def listMax : List ℚ → ℚ
  | [] => 0
  | x :: xs => xs.foldl max x

/-- Python `sum`. -/
def listSum (l : List ℚ) : ℚ :=
  l.foldl (· + ·) 0

/-- The interval-statistics tail of `parse_observation_data` (source lines
computing `calculated_interval` and `interval_consistent` from the captured
epoch timestamps); the second component is `none` when the key is never
written. -/
def calcInterval (ts : List Timestamp) : Option (List Char) × Option Bool :=
  if ts.length ≥ 2 then
    let intervals := intervalsOf ts
    if intervals.isEmpty then (none, none)
    else
      let min_interval := listMin intervals
      let max_interval := listMax intervals
      let avg_interval := listSum intervals / intervals.length
      if max_interval - min_interval < (0.01 : ℚ) * avg_interval then
        (some (format3 avg_interval), some true)
      else
        (some (format3 avg_interval ++ " (range: ".data ++ format3 min_interval ++
          "-".data ++ format3 max_interval ++ ")".data), some false)
  else (none, none)

/-- The observation dictionary returned by `parse_observation_data`. -/
structure ObsData where
  constellations_in_data : List Char
  actual_start : Option (List Char)
  actual_end : Option (List Char)
  duration_seconds : ℚ
  num_epochs : ℕ
  calculated_interval : Option (List Char)
  epoch_times : List Timestamp
  satellites_per_epoch : List ℕ
  interval_consistent : Option Bool
deriving DecidableEq, Repr

/-- The post-loop part of `parse_observation_data`: populate start/end,
duration and epoch count when epochs were seen, then derive the interval
summary. -/
def finalizeObs (st : ObsState) : ObsData :=
  let base : ObsData :=
    { constellations_in_data := st.constellations
      actual_start := none
      actual_end := none
      duration_seconds := 0
      num_epochs := 0
      calculated_interval := none
      epoch_times := st.epoch_times
      satellites_per_epoch := []
      interval_consistent := none }
  let d :=
    match st.first, st.last with
    | some f, some l =>
        { base with
          actual_start := some (renderTimestamp f)
          actual_end := some (renderTimestamp l)
          duration_seconds := ((toSecs l - toSecs f : ℤ) : ℚ)
          num_epochs := st.epoch_count }
    | _, _ => base
  let (ci, cons) := calcInterval st.epoch_times
  { d with calculated_interval := ci, interval_consistent := cons }

/-- Translation of `parse_observation_data(lines, header_data)`. -/
def parse_observation_data (lines : List (List Char)) : ObsData :=
  finalizeObs (scanBody initObsState (bodyLines lines))

/-! ## Claim theorems -/

/-- C10: for every input line sequence (and any position-conversion
behaviour), the record returned by `parse_rinex_header` never carries the
internal continuation key `'_last_obs_system'` (the `lastObsSystem` field is
`none`), and every other field equals the corresponding field of the raw
scan state, so deleting the key changes nothing else. -/
theorem header_no_continuation_state_leak
    (conv : ℚ → ℚ → ℚ → Option (List Char)) (lines : List (List Char)) :
    (parse_rinex_header conv lines).lastObsSystem = none ∧
    (parse_rinex_header conv lines).version =
      (scanHeaderLines conv initHeaderData lines).version ∧
    (parse_rinex_header conv lines).file_type =
      (scanHeaderLines conv initHeaderData lines).file_type ∧
    (parse_rinex_header conv lines).satellite_system =
      (scanHeaderLines conv initHeaderData lines).satellite_system ∧
    (parse_rinex_header conv lines).observation_types =
      (scanHeaderLines conv initHeaderData lines).observation_types ∧
    (parse_rinex_header conv lines).antenna_type =
      (scanHeaderLines conv initHeaderData lines).antenna_type ∧
    (parse_rinex_header conv lines).antenna_height =
      (scanHeaderLines conv initHeaderData lines).antenna_height ∧
    (parse_rinex_header conv lines).antenna_delta =
      (scanHeaderLines conv initHeaderData lines).antenna_delta ∧
    (parse_rinex_header conv lines).approx_position =
      (scanHeaderLines conv initHeaderData lines).approx_position ∧
    (parse_rinex_header conv lines).lat_lon_elev =
      (scanHeaderLines conv initHeaderData lines).lat_lon_elev ∧
    (parse_rinex_header conv lines).interval =
      (scanHeaderLines conv initHeaderData lines).interval ∧
    (parse_rinex_header conv lines).time_first_obs =
      (scanHeaderLines conv initHeaderData lines).time_first_obs ∧
    (parse_rinex_header conv lines).time_last_obs =
      (scanHeaderLines conv initHeaderData lines).time_last_obs ∧
    (parse_rinex_header conv lines).leap_seconds =
      (scanHeaderLines conv initHeaderData lines).leap_seconds ∧
    (parse_rinex_header conv lines).constellations_obs =
      (scanHeaderLines conv initHeaderData lines).constellations_obs ∧
    (parse_rinex_header conv lines).constellations_nav =
      (scanHeaderLines conv initHeaderData lines).constellations_nav ∧
    (parse_rinex_header conv lines).marker_name =
      (scanHeaderLines conv initHeaderData lines).marker_name ∧
    (parse_rinex_header conv lines).marker_number =
      (scanHeaderLines conv initHeaderData lines).marker_number ∧
    (parse_rinex_header conv lines).marker_type =
      (scanHeaderLines conv initHeaderData lines).marker_type ∧
    (parse_rinex_header conv lines).observer =
      (scanHeaderLines conv initHeaderData lines).observer ∧
    (parse_rinex_header conv lines).agency =
      (scanHeaderLines conv initHeaderData lines).agency ∧
    (parse_rinex_header conv lines).receiver_number =
      (scanHeaderLines conv initHeaderData lines).receiver_number ∧
    (parse_rinex_header conv lines).receiver_type =
      (scanHeaderLines conv initHeaderData lines).receiver_type ∧
    (parse_rinex_header conv lines).receiver_version =
      (scanHeaderLines conv initHeaderData lines).receiver_version ∧
    (parse_rinex_header conv lines).antenna_number =
      (scanHeaderLines conv initHeaderData lines).antenna_number := by
  refine ⟨rfl, rfl, rfl, rfl, rfl, rfl, rfl, rfl, rfl, rfl, rfl, rfl, rfl,
    rfl, rfl, rfl, rfl, rfl, rfl, rfl, rfl, rfl, rfl, rfl, rfl⟩

/-- An unmatched (empty) label leaves the header dictionary unchanged:
every handler in the `elif` chain requires a nonempty label substring. -/
theorem handleHeaderLine_empty_label (conv : ℚ → ℚ → ℚ → Option (List Char))
    (d : HeaderData) (content : List Char) :
    handleHeaderLine conv d [] content = d := rfl

/-- C6: a header line of exactly 59 characters is skipped (below the
60-column threshold) without error and the scan continues; a line of
exactly 60 characters has an empty label, is never treated as the
`END OF HEADER` terminator, and also leaves the state unchanged while the
scan continues. -/
theorem header_line_length_boundaries (conv : ℚ → ℚ → ℚ → Option (List Char))
    (d : HeaderData) (l : List Char) (rest : List (List Char)) :
    (l.length = 59 → scanHeaderLines conv d (l :: rest) = scanHeaderLines conv d rest) ∧
    (l.length = 60 →
      listContains ("END OF HEADER".data) (pyStrip (l.drop 60)) = false ∧
      scanHeaderLines conv d (l :: rest) = scanHeaderLines conv d rest) := by
  constructor
  · intro h
    have : l.length < 60 := by omega
    simp [scanHeaderLines, this]
  · intro h
    have hdrop : l.drop 60 = [] := List.drop_eq_nil_of_le (by omega)
    have hlab : pyStrip (l.drop 60) = [] := by rw [hdrop]; rfl
    refine ⟨by rw [hlab]; rfl, ?_⟩
    have hnl : ¬ l.length < 60 := by omega
    simp only [scanHeaderLines, if_neg hnl, hlab]
    rw [if_neg (by decide)]
    rw [handleHeaderLine_empty_label]

/-- Witness for C6 at concrete 59- and 60-character lines. -/
theorem header_line_length_boundaries_witness :
    (List.replicate 59 'A').length = 59 ∧
    (List.replicate 60 'A').length = 60 ∧
    (scanHeaderLines (fun _ _ _ => none) initHeaderData [List.replicate 59 'A'] =
      initHeaderData) ∧
    (listContains ("END OF HEADER".data) (pyStrip ((List.replicate 60 'A').drop 60)) = false ∧
     scanHeaderLines (fun _ _ _ => none) initHeaderData [List.replicate 60 'A'] =
       initHeaderData) := by
  refine ⟨by decide, by decide, ?_, ?_⟩
  · exact (header_line_length_boundaries (fun _ _ _ => none) initHeaderData
      (List.replicate 59 'A') []).1 (by decide)
  · exact (header_line_length_boundaries (fun _ _ _ => none) initHeaderData
      (List.replicate 60 'A') []).2 (by decide)

/-- A fixed conversion stub used in concrete witnesses (models the
position-conversion `try` body always raising). -/
def convNone : ℚ → ℚ → ℚ → Option (List Char) := fun _ _ _ => none

/-- C8: for every `APPROX POSITION XYZ` header line, the raw content is
stored in the record; when the float parse does not yield exactly three
tokens or the conversion/rendering fails (`tryPosition ... = none`, the
`except: pass`), the derived position field is left untouched (it keeps the
`"Not calculated"` sentinel it started with), no other field changes, and
the header scan continues with the next line. -/
theorem approx_position_failure_absorbed (conv : ℚ → ℚ → ℚ → Option (List Char))
    (d : HeaderData) (line : List Char) (rest : List (List Char))
    (hlen : 60 ≤ line.length)
    (hlab : pyStrip (line.drop 60) = "APPROX POSITION XYZ".data) :
    handleHeaderLine conv d (pyStrip (line.drop 60)) (pyStrip (line.take 60)) =
      { d with
        approx_position := pyStrip (line.take 60),
        lat_lon_elev :=
          match tryPosition conv (pyStrip (line.take 60)) with
          | some rendered => rendered
          | none => d.lat_lon_elev } ∧
    (tryPosition conv (pyStrip (line.take 60)) = none →
      (handleHeaderLine conv d (pyStrip (line.drop 60))
        (pyStrip (line.take 60))).lat_lon_elev = d.lat_lon_elev) ∧
    scanHeaderLines conv d (line :: rest) =
      scanHeaderLines conv
        (handleHeaderLine conv d (pyStrip (line.drop 60)) (pyStrip (line.take 60))) rest := by
  rw [hlab]
  have hmain : ∀ d' : HeaderData,
      handleHeaderLine conv d' ("APPROX POSITION XYZ".data) (pyStrip (line.take 60)) =
      { d' with
        approx_position := pyStrip (line.take 60),
        lat_lon_elev :=
          match tryPosition conv (pyStrip (line.take 60)) with
          | some rendered => rendered
          | none => d'.lat_lon_elev } := by
    intro d'
    unfold handleHeaderLine
    rw [if_neg (by decide), if_neg (by decide), if_neg (by decide), if_neg (by decide),
      if_neg (by decide), if_neg (by decide), if_neg (by decide), if_neg (by decide),
      if_pos (by decide)]
    cases htp : tryPosition conv (pyStrip (line.take 60)) <;> simp [htp]
  refine ⟨hmain d, ?_, ?_⟩
  · intro hnone
    rw [hmain d, hnone]
  · have hnl : ¬ line.length < 60 := by omega
    simp only [scanHeaderLines, if_neg hnl, hlab]
    rw [if_neg (by decide)]

/-- Witness for C8: a concrete `APPROX POSITION XYZ` line whose content
`"ABC DEF"` fails float parsing; the sentinel is untouched. -/
theorem approx_position_failure_absorbed_witness :
    60 ≤ (("ABC DEF".data ++ List.replicate 53 ' ') ++ "APPROX POSITION XYZ".data).length ∧
    pyStrip ((("ABC DEF".data ++ List.replicate 53 ' ') ++
      "APPROX POSITION XYZ".data).drop 60) = "APPROX POSITION XYZ".data ∧
    tryPosition convNone (pyStrip ((("ABC DEF".data ++ List.replicate 53 ' ') ++
      "APPROX POSITION XYZ".data).take 60)) = none ∧
    (handleHeaderLine convNone initHeaderData
      (pyStrip ((("ABC DEF".data ++ List.replicate 53 ' ') ++
        "APPROX POSITION XYZ".data).drop 60))
      (pyStrip ((("ABC DEF".data ++ List.replicate 53 ' ') ++
        "APPROX POSITION XYZ".data).take 60))).lat_lon_elev =
      initHeaderData.lat_lon_elev :=
  ⟨by decide, by decide, by decide,
    (approx_position_failure_absorbed convNone initHeaderData
      (("ABC DEF".data ++ List.replicate 53 ' ') ++ "APPROX POSITION XYZ".data) []
      (by decide) (by decide)).2.1 (by decide)⟩

/-! Association-list facts used for the observation-type continuation. -/

theorem getBangZero (a : List Char) (l : List (List Char)) : (a :: l)[0]! = a := by
  simp

theorem getBangOne (a b : List Char) (l : List (List Char)) : (a :: b :: l)[1]! = b := by
  simp

theorem dictMem_dictSet (k : List Char) (v : List (List Char))
    (m : List (List Char × List (List Char))) : dictMem k (dictSet k v m) = true := by
  induction m with
  | nil => simp [dictSet, dictMem]
  | cons kv rest ih =>
      obtain ⟨k', v'⟩ := kv
      by_cases h : k' = k
      · simp [dictSet, dictMem, h]
      · simp [dictSet, dictMem, h, ih]

theorem dictGet_dictExtend_dictSet (k : List Char) (v ts : List (List Char))
    (m : List (List Char × List (List Char))) :
    dictGet k (dictExtend k ts (dictSet k v m)) = some (v ++ ts) := by
  induction m with
  | nil => simp [dictSet, dictExtend, dictGet]
  | cons kv rest ih =>
      obtain ⟨k', v'⟩ := kv
      by_cases h : k' = k
      · simp [dictSet, dictExtend, dictGet, h]
      · simp [dictSet, dictExtend, dictGet, h, ih]

/-- Stepping the header scan over a retained non-terminator line. -/
theorem scanHeaderLines_step (conv : ℚ → ℚ → ℚ → Option (List Char))
    (d : HeaderData) (line : List Char) (rest : List (List Char))
    (hlen : 60 ≤ line.length)
    (hlab : listContains ("END OF HEADER".data) (pyStrip (line.drop 60)) = false) :
    scanHeaderLines conv d (line :: rest) =
      scanHeaderLines conv
        (handleHeaderLine conv d (pyStrip (line.drop 60)) (pyStrip (line.take 60))) rest := by
  have hnl : ¬ line.length < 60 := by omega
  simp only [scanHeaderLines, if_neg hnl, hlab]
  rw [if_neg (by simp)]

/-- The `SYS / # / OBS TYPES` handler on a line starting a new system. -/
theorem handleHeaderLine_sys_new (conv : ℚ → ℚ → ℚ → Option (List Char))
    (d : HeaderData) (content : List Char) (g : Char) (numTok : List Char)
    (ts : List (List Char)) (k : ℤ)
    (hsplit : pySplit content = [g] :: numTok :: ts)
    (hg : g.isAlpha = true) (hnum : pyInt numTok = some k) :
    handleHeaderLine conv d ("SYS / # / OBS TYPES".data) content =
      { d with
        observation_types := dictSet [g] ts d.observation_types,
        constellations_obs := setAdd [g] d.constellations_obs,
        lastObsSystem := some [g] } := by
  unfold handleHeaderLine
  rw [if_neg (by decide), if_neg (by decide), if_neg (by decide), if_neg (by decide),
    if_neg (by decide), if_neg (by decide), if_neg (by decide), if_neg (by decide),
    if_neg (by decide), if_neg (by decide), if_neg (by decide), if_neg (by decide),
    if_neg (by decide), if_pos (by decide), hsplit]
  rw [if_pos (by simp)]
  rw [getBangZero, getBangOne]
  simp only [List.headD_cons, List.length_singleton, hg, hnum]
  rw [if_pos (by simp)]
  simp

/-- The `SYS / # / OBS TYPES` handler on a continuation line (first token
not a bare single letter) when a previous system is recorded. -/
theorem handleHeaderLine_sys_cont (conv : ℚ → ℚ → ℚ → Option (List Char))
    (d : HeaderData) (content : List Char) (ts : List (List Char)) (sys : List Char)
    (hsplit : pySplit content = ts) (hcnt : 2 ≤ ts.length)
    (hcont : ¬((ts[0]!.headD ' ').isAlpha = true ∧ ts[0]!.length = 1))
    (hlast : d.lastObsSystem = some sys)
    (hmem : dictMem sys d.observation_types = true) :
    handleHeaderLine conv d ("SYS / # / OBS TYPES".data) content =
      { d with observation_types := dictExtend sys ts d.observation_types } := by
  unfold handleHeaderLine
  rw [if_neg (by decide), if_neg (by decide), if_neg (by decide), if_neg (by decide),
    if_neg (by decide), if_neg (by decide), if_neg (by decide), if_neg (by decide),
    if_neg (by decide), if_neg (by decide), if_neg (by decide), if_neg (by decide),
    if_neg (by decide), if_pos (by decide), hsplit]
  rw [if_pos (by omega)]
  rw [if_neg (by
    intro hcond
    apply hcont
    constructor
    · exact (Bool.and_eq_true _ _ |>.mp hcond).1
    · have := (Bool.and_eq_true _ _ |>.mp hcond).2
      simpa using this)]
  rw [hlast]
  simp [hmem]

/-- C4: for a header whose `SYS / # / OBS TYPES` block for a system `g` is
split across two lines — the first starting the system (bare single-letter
first token, parseable declared count) and listing `ts13`, the second a
continuation (first token not a bare single letter) listing `ts2` — the
returned observation-types mapping holds `ts13 ++ ts2` under the system key:
continuation tokens are appended to the immediately preceding system's
list, and with 13 + 2 tokens the entry has exactly 15 elements. -/
theorem sys_obs_types_continuation (conv : ℚ → ℚ → ℚ → Option (List Char))
    (g : Char) (numTok : List Char) (k : ℤ) (ts13 ts2 : List (List Char))
    (line1 line2 : List Char)
    (h1len : 60 ≤ line1.length)
    (h1lab : pyStrip (line1.drop 60) = "SYS / # / OBS TYPES".data)
    (h1split : pySplit (pyStrip (line1.take 60)) = [g] :: numTok :: ts13)
    (hg : g.isAlpha = true)
    (hnum : pyInt numTok = some k)
    (h2len : 60 ≤ line2.length)
    (h2lab : pyStrip (line2.drop 60) = "SYS / # / OBS TYPES".data)
    (h2split : pySplit (pyStrip (line2.take 60)) = ts2)
    (h2cnt : 2 ≤ ts2.length)
    (h2cont : ¬((ts2[0]!.headD ' ').isAlpha = true ∧ ts2[0]!.length = 1)) :
    dictGet [g] (parse_rinex_header conv [line1, line2]).observation_types =
      some (ts13 ++ ts2) ∧
    (ts13.length = 13 → ts2.length = 2 → (ts13 ++ ts2).length = 15) := by
  constructor
  · have hs1 : scanHeaderLines conv initHeaderData [line1, line2] =
        scanHeaderLines conv
          (handleHeaderLine conv initHeaderData (pyStrip (line1.drop 60))
            (pyStrip (line1.take 60))) [line2] :=
      scanHeaderLines_step conv initHeaderData line1 [line2] h1len
        (by rw [h1lab]; decide)
    rw [h1lab] at hs1
    rw [handleHeaderLine_sys_new conv initHeaderData (pyStrip (line1.take 60)) g numTok
      ts13 k h1split hg hnum] at hs1
    set d1 : HeaderData :=
      { initHeaderData with
        observation_types := dictSet [g] ts13 initHeaderData.observation_types,
        constellations_obs := setAdd [g] initHeaderData.constellations_obs,
        lastObsSystem := some [g] } with hd1
    have hs2 : scanHeaderLines conv d1 [line2] =
        scanHeaderLines conv
          (handleHeaderLine conv d1 (pyStrip (line2.drop 60))
            (pyStrip (line2.take 60))) [] :=
      scanHeaderLines_step conv d1 line2 [] h2len (by rw [h2lab]; decide)
    rw [h2lab] at hs2
    rw [handleHeaderLine_sys_cont conv d1 (pyStrip (line2.take 60)) ts2 [g]
      h2split h2cnt h2cont (by rw [hd1]) (by rw [hd1]; exact dictMem_dictSet _ _ _)] at hs2
    show dictGet [g]
      ({ scanHeaderLines conv initHeaderData [line1, line2] with
         lastObsSystem := none }).observation_types = some (ts13 ++ ts2)
    rw [hs1, hs2]
    show dictGet [g] (dictExtend [g] ts2 (dictSet [g] ts13
      initHeaderData.observation_types)) = some (ts13 ++ ts2)
    exact dictGet_dictExtend_dictSet [g] ts13 ts2 _
  · intro ha hb
    simp [ha, hb]

/-- Witness for C4: a concrete two-line `G`-system block, 15 declared
types, 13 on the first line and 2 on the continuation line. -/
theorem sys_obs_types_continuation_witness :
    dictGet ['G'] (parse_rinex_header convNone
      [("G   15 C1C L1C D1C S1C C2S L2S D2S S2S C2W L2W D2W S2W C5Q".data ++
          List.replicate 2 ' ') ++ "SYS / # / OBS TYPES".data,
        ("       L5Q D5Q".data ++ List.replicate 46 ' ') ++
          "SYS / # / OBS TYPES".data]).observation_types =
      some ["C1C".data, "L1C".data, "D1C".data, "S1C".data, "C2S".data, "L2S".data,
        "D2S".data, "S2S".data, "C2W".data, "L2W".data, "D2W".data, "S2W".data,
        "C5Q".data, "L5Q".data, "D5Q".data] ∧
    (["C1C".data, "L1C".data, "D1C".data, "S1C".data, "C2S".data, "L2S".data,
        "D2S".data, "S2S".data, "C2W".data, "L2W".data, "D2W".data, "S2W".data,
        "C5Q".data] ++ ["L5Q".data, "D5Q".data]).length = 15 := by
  have h := sys_obs_types_continuation convNone 'G' ("15".data) 15
    ["C1C".data, "L1C".data, "D1C".data, "S1C".data, "C2S".data, "L2S".data,
      "D2S".data, "S2S".data, "C2W".data, "L2W".data, "D2W".data, "S2W".data,
      "C5Q".data]
    ["L5Q".data, "D5Q".data]
    (("G   15 C1C L1C D1C S1C C2S L2S D2S S2S C2W L2W D2W S2W C5Q".data ++
      List.replicate 2 ' ') ++ "SYS / # / OBS TYPES".data)
    (("       L5Q D5Q".data ++ List.replicate 46 ' ') ++ "SYS / # / OBS TYPES".data)
    (by decide) (by decide) (by decide) (by decide) (by decide)
    (by decide) (by decide) (by decide) (by decide) (by decide)
  exact ⟨by simpa using h.1, h.2 (by decide) (by decide)⟩

/-! Bounds on two-character integer fields, used to relate the code's
two-digit-year mapping to the claim's wording. -/

theorem digitVal_le_9 (c : Char) (h : c.isDigit = true) : digitVal c ≤ 9 := by
  unfold digitVal
  simp only [Char.isDigit, Bool.and_eq_true, decide_eq_true_eq] at h
  obtain ⟨h1, h2⟩ := h
  have h3 : c.toNat ≤ 57 := UInt32.toNat_le_of_le (by norm_num [UInt32.size]) h2
  omega

theorem digitsToNat_le_99 (r : List Char) (hd : ∀ c ∈ r, c.isDigit = true)
    (hl : r.length ≤ 2) : digitsToNat r ≤ 99 := by
  match r, hl with
  | [], _ => decide
  | [a], _ =>
      have := digitVal_le_9 a (hd a (by simp))
      simp only [digitsToNat, List.foldl]
      omega
  | [a, b], _ =>
      have ha := digitVal_le_9 a (hd a (by simp))
      have hb := digitVal_le_9 b (hd b (by simp))
      simp only [digitsToNat, List.foldl]
      omega

theorem pyStrip_length_le (s : List Char) : (pyStrip s).length ≤ s.length := by
  unfold pyStrip
  have h1 := (List.dropWhile_sublist (l := s) pySpace).length_le
  have h2 := (List.dropWhile_sublist
    (l := (s.dropWhile pySpace).reverse) pySpace).length_le
  simp only [List.length_reverse] at h1 h2 ⊢
  omega

theorem pyInt_le_99 (s : List Char) (y : ℤ) (hs : s.length ≤ 2)
    (h : pyInt s = some y) : y ≤ 99 := by
  have hst : (pyStrip s).length ≤ 2 := le_trans (pyStrip_length_le s) hs
  dsimp only [pyInt] at h
  split at h
  next r heq =>
    split at h
    next hdig =>
      injection h with h
      subst h
      have hall : ∀ c ∈ r, c.isDigit = true := by
        simp only [pyIsdigit, Bool.and_eq_true, List.all_eq_true] at hdig
        exact hdig.2
      have hr : r.length ≤ 2 := by
        have : (pyStrip s).length = r.length + 1 := by rw [heq]; rfl
        omega
      have hle := digitsToNat_le_99 r hall hr
      exact_mod_cast hle
    next => exact absurd h (by simp)
  next r heq =>
    split at h
    next hdig =>
      injection h with h
      subst h
      have : (0 : ℤ) ≤ digitsToNat r := Int.ofNat_nonneg _
      omega
    next => exact absurd h (by simp)
  next x hplus hminus =>
    split at h
    next hdig =>
      injection h with h
      subst h
      have hall : ∀ c ∈ pyStrip s, c.isDigit = true := by
        simp only [pyIsdigit, Bool.and_eq_true, List.all_eq_true] at hdig
        exact hdig.2
      have hle := digitsToNat_le_99 (pyStrip s) hall hst
      exact_mod_cast hle
    next => exact absurd h (by simp)

/-- Modelled from the claim (C7) wording "columns 1-3 are digits": the two
characters at positions 1 and 2 are both ASCII digits. -/
def claimV2ColumnsDigits (l : List Char) : Bool :=
  decide (l.length > 29) && isPrefixL [' '] l &&
    (l.getD 1 ' ').isDigit && (l.getD 2 ' ').isDigit

/-- Modelled from the amended claim: recognition requires that the slice at
columns `[1:3)`, after stripping whitespace, is a nonempty digit string. -/
def specV2RecognizeAmended (l : List Char) : Bool :=
  decide (l.length > 29) && isPrefixL [' '] l && pyIsdigit (pyStrip (sliceChars 1 3 l))

/-- Modelled from the claim's extraction wording: fixed offsets `[1:3)`
year, `[4:6)` month, `[7:9)` day, `[10:12)` hour, `[13:15)` minute,
`[16:26)` seconds, with the two-digit year mapped to the 1900s when 80-99
and to the 2000s when 00-79. -/
def specV2Extract (l : List Char) : Option Timestamp :=
  match pyInt (sliceChars 1 3 l), pyInt (sliceChars 4 6 l),
      pyInt (sliceChars 7 9 l), pyInt (sliceChars 10 12 l),
      pyInt (sliceChars 13 15 l), pyFloat (sliceChars 16 26 l) with
  | some y2, some mo, some dd, some h, some mi, some sec =>
      let y := if 80 ≤ y2 ∧ y2 ≤ 99 then 1900 + y2 else 2000 + y2
      mkDatetime y mo dd h mi (truncZ sec)
  | _, _, _, _, _, _ => none

/-- Counterexample for C7 as stated: the line `"  5  1  1  0  0  0.0000000  0  4"`
(single-digit year right-justified in columns 1-2) is recognized by the code
as a v2.x epoch header even though column 1 is a space, not a digit. -/
theorem v2_recognition_counterexample :
    isV2EpochLine ("  5  1  1  0  0  0.0000000  0  4".data) = true ∧
    claimV2ColumnsDigits ("  5  1  1  0  0  0.0000000  0  4".data) = false := by
  decide

/-- C7 (amended): a body line is recognized as a v2.x epoch header exactly
when its length exceeds 29, its first character is a space, and the slice
at columns `[1:3)`, after stripping whitespace, is a nonempty digit string;
on recognition the timestamp is extracted at the fixed offsets with the
80-99 → 1900s / 00-79 → 2000s year mapping. -/
theorem v2_recognition_amended (l : List Char) :
    isV2EpochLine l = specV2RecognizeAmended l ∧ v2Parse l = specV2Extract l := by
  constructor
  · rfl
  · unfold v2Parse specV2Extract
    cases h1 : pyInt (sliceChars 1 3 l) with
    | none => rfl
    | some y0 =>
        cases h2 : pyInt (sliceChars 4 6 l) with
        | none => rfl
        | some mo =>
            cases h3 : pyInt (sliceChars 7 9 l) with
            | none => rfl
            | some dd =>
                cases h4 : pyInt (sliceChars 10 12 l) with
                | none => rfl
                | some hh =>
                    cases h5 : pyInt (sliceChars 13 15 l) with
                    | none => rfl
                    | some mi =>
                        cases h6 : pyFloat (sliceChars 16 26 l) with
                        | none => rfl
                        | some sec =>
                            have hb : y0 ≤ 99 := pyInt_le_99 _ y0 (by
                              simp only [sliceChars]
                              have := l.length_take 3
                              simp only [List.length_drop]
                              omega) h1
                            have hy : (if y0 ≥ 80 then y0 + 1900 else y0 + 2000) =
                                (if 80 ≤ y0 ∧ y0 ≤ 99 then 1900 + y0 else 2000 + y0) := by
                              split_ifs <;> omega
                            simp only [hy]

/-! Substring facts connecting the two terminator searches: the header
loop looks for `END OF HEADER` in the stripped label (columns 60+), the
observation scanner looks for it anywhere in the raw line. -/

theorem isPrefixL_iff (p : List Char) : ∀ s, isPrefixL p s = true ↔ ∃ t, s = p ++ t := by
  induction p with
  | nil => intro s; simp [isPrefixL]
  | cons a as ih =>
      intro s
      cases s with
      | nil => simp [isPrefixL]
      | cons b bs =>
          simp only [isPrefixL, Bool.and_eq_true, decide_eq_true_eq, ih, List.cons_append]
          constructor
          · rintro ⟨rfl, t, rfl⟩
            exact ⟨t, rfl⟩
          · rintro ⟨t, h⟩
            injection h with h1 h2
            exact ⟨h1.symm, t, h2⟩

theorem listContains_iff (p : List Char) :
    ∀ s, listContains p s = true ↔ ∃ a b, s = a ++ p ++ b := by
  intro s
  induction s with
  | nil =>
      simp only [listContains, isPrefixL_iff]
      constructor
      · rintro ⟨t, h⟩
        exact ⟨[], t, by simpa using h⟩
      · rintro ⟨a, b, h⟩
        rw [List.append_assoc] at h
        rcases List.append_eq_nil.mp h.symm with ⟨rfl, h2⟩
        rcases List.append_eq_nil.mp h2 with ⟨rfl, rfl⟩
        exact ⟨[], rfl⟩
  | cons c cs ih =>
      simp only [listContains, Bool.or_eq_true, isPrefixL_iff, ih]
      constructor
      · rintro (⟨t, h⟩ | ⟨a, b, rfl⟩)
        · exact ⟨[], t, by simpa using h⟩
        · exact ⟨c :: a, b, by simp⟩
      · rintro ⟨a, b, h⟩
        cases a with
        | nil => exact Or.inl ⟨b, by simpa using h⟩
        | cons a0 as0 =>
            injection h with h1 h2
            exact Or.inr ⟨as0, b, h2⟩

theorem listContains_of_part {p x l : List Char} (hx : ∃ a b, l = a ++ x ++ b)
    (h : listContains p x = true) : listContains p l = true := by
  rw [listContains_iff] at h ⊢
  obtain ⟨u, v, rfl⟩ := h
  obtain ⟨a, b, rfl⟩ := hx
  exact ⟨a ++ u, v ++ b, by simp⟩

theorem pyStrip_decompose (s : List Char) : ∃ a b, s = a ++ pyStrip s ++ b := by
  refine ⟨s.takeWhile pySpace,
    ((s.dropWhile pySpace).reverse.takeWhile pySpace).reverse, ?_⟩
  unfold pyStrip
  conv_lhs => rw [← List.takeWhile_append_dropWhile (p := pySpace) (l := s)]
  rw [List.append_assoc]
  congr 1
  conv_lhs => rw [← List.reverse_reverse (s.dropWhile pySpace)]
  conv_lhs =>
    rw [← List.takeWhile_append_dropWhile (p := pySpace)
      (l := (s.dropWhile pySpace).reverse)]
  rw [List.reverse_append]

theorem listContains_of_label {l : List Char}
    (h : listContains ("END OF HEADER".data) (pyStrip (l.drop 60)) = true) :
    listContains ("END OF HEADER".data) l = true := by
  have h1 : listContains ("END OF HEADER".data) (l.drop 60) = true :=
    listContains_of_part (pyStrip_decompose (l.drop 60)) h
  exact listContains_of_part ⟨l.take 60, [], by simp⟩ h1

/-- The condition under which the header loop stops at a line: at least 60
characters and `END OF HEADER` in the stripped label columns. -/
def isHeaderTerminatorLine (l : List Char) : Bool :=
  decide (60 ≤ l.length) && listContains ("END OF HEADER".data) (pyStrip (l.drop 60))

theorem headerEndAux_append (i : ℕ) (pre : List (List Char)) (term : List Char)
    (post : List (List Char))
    (hpre : ∀ l ∈ pre, listContains ("END OF HEADER".data) l = false)
    (hterm : listContains ("END OF HEADER".data) term = true) :
    headerEndAux i (pre ++ term :: post) = i + pre.length + 1 := by
  induction pre generalizing i with
  | nil => simp [headerEndAux, hterm]
  | cons l rest ih =>
      have hl : listContains ("END OF HEADER".data) l = false := hpre l (by simp)
      simp only [List.cons_append, headerEndAux, hl, Bool.false_eq_true, if_false]
      rw [List.append_eq, ih (i + 1) (fun x hx => hpre x (by simp [hx]))]
      simp
      omega

theorem scanHeaderLines_stops (conv : ℚ → ℚ → ℚ → Option (List Char))
    (d : HeaderData) (pre : List (List Char)) (term : List Char)
    (post : List (List Char))
    (hpre : ∀ l ∈ pre, listContains ("END OF HEADER".data) l = false)
    (hlen : 60 ≤ term.length)
    (hterm : listContains ("END OF HEADER".data) (pyStrip (term.drop 60)) = true) :
    scanHeaderLines conv d (pre ++ term :: post) =
      scanHeaderLines conv d (pre ++ [term]) := by
  induction pre generalizing d with
  | nil =>
      have hnl : ¬ term.length < 60 := by omega
      simp only [List.nil_append, scanHeaderLines, if_neg hnl, hterm]
      simp
  | cons l rest ih =>
      by_cases hl : l.length < 60
      · simp only [List.cons_append, scanHeaderLines, if_pos hl]
        exact ih d (fun x hx => hpre x (by simp [hx]))
      · have hlab : listContains ("END OF HEADER".data) (pyStrip (l.drop 60)) = false := by
          by_contra hc
          have hc' : listContains ("END OF HEADER".data) (pyStrip (l.drop 60)) = true := by
            revert hc
            cases listContains ("END OF HEADER".data) (pyStrip (l.drop 60)) <;> simp
          have := listContains_of_label hc'
          rw [hpre l (by simp)] at this
          exact Bool.false_ne_true this
        simp only [List.cons_append, scanHeaderLines, if_neg hl, hlab]
        rw [if_neg (by simp)]
        exact ih _ (fun x hx => hpre x (by simp [hx]))

/-- C5 (amended): header scanning stops at the first line of length ≥ 60
whose label columns contain `END OF HEADER` (lines after it never affect
the returned header record), and the observation scanner skips exactly the
lines up to and including the first line containing `END OF HEADER`
anywhere in the line; when no earlier line contains the phrase anywhere,
those two lines coincide, so the scanner examines exactly the lines
strictly after the terminator. -/
theorem header_terminator_boundary (conv : ℚ → ℚ → ℚ → Option (List Char))
    (pre : List (List Char)) (term : List Char) (post : List (List Char))
    (hpre : ∀ l ∈ pre, listContains ("END OF HEADER".data) l = false)
    (hlen : 60 ≤ term.length)
    (hterm : listContains ("END OF HEADER".data) (pyStrip (term.drop 60)) = true) :
    parse_rinex_header conv (pre ++ term :: post) =
      parse_rinex_header conv (pre ++ [term]) ∧
    bodyLines (pre ++ term :: post) = post := by
  constructor
  · unfold parse_rinex_header
    rw [scanHeaderLines_stops conv initHeaderData pre term post hpre hlen hterm]
  · unfold bodyLines headerEnd
    have hterm' : listContains ("END OF HEADER".data) term = true :=
      listContains_of_label hterm
    rw [headerEndAux_append 0 pre term post hpre hterm']
    rw [show pre ++ term :: post = (pre ++ [term]) ++ post by simp]
    have hlenp : (pre ++ [term]).length = 0 + pre.length + 1 := by simp
    rw [← hlenp]
    exact List.drop_left _ _

/-- Witness for C5 (amended) at a concrete well-formed file: a single
regular terminator line followed by one body line. -/
theorem header_terminator_boundary_witness :
    60 ≤ (List.replicate 60 ' ' ++ "END OF HEADER".data).length ∧
    listContains ("END OF HEADER".data)
      (pyStrip ((List.replicate 60 ' ' ++ "END OF HEADER".data).drop 60)) = true ∧
    (parse_rinex_header convNone
        ([] ++ (List.replicate 60 ' ' ++ "END OF HEADER".data) :: ["> body".data]) =
      parse_rinex_header convNone ([] ++ [List.replicate 60 ' ' ++ "END OF HEADER".data]) ∧
     bodyLines ([] ++ (List.replicate 60 ' ' ++ "END OF HEADER".data) :: ["> body".data]) =
      ["> body".data]) :=
  ⟨by decide, by decide,
    header_terminator_boundary convNone [] (List.replicate 60 ' ' ++ "END OF HEADER".data)
      ["> body".data] (by simp) (by decide) (by decide)⟩

/-- Counterexample for C5 as stated: in the file
`["END OF HEADER", 60 spaces ++ "END OF HEADER", "> body"]` the header
scan's terminator (first ≥60-character line with the phrase in its label)
is the second line, yet the observation scanner starts right after the
first line — it re-examines the terminator line instead of starting
strictly after it. -/
theorem header_terminator_counterexample :
    isHeaderTerminatorLine ("END OF HEADER".data) = false ∧
    isHeaderTerminatorLine (List.replicate 60 ' ' ++ "END OF HEADER".data) = true ∧
    bodyLines ["END OF HEADER".data,
        List.replicate 60 ' ' ++ "END OF HEADER".data, "> body".data] =
      [List.replicate 60 ' ' ++ "END OF HEADER".data, "> body".data] ∧
    (["END OF HEADER".data,
        List.replicate 60 ' ' ++ "END OF HEADER".data, "> body".data].drop 2 =
      ["> body".data]) ∧
    bodyLines ["END OF HEADER".data,
        List.replicate 60 ' ' ++ "END OF HEADER".data, "> body".data] ≠
      ["END OF HEADER".data,
        List.replicate 60 ' ' ++ "END OF HEADER".data, "> body".data].drop 2 := by
  refine ⟨by decide, by decide, by decide, by decide, by decide⟩

/-! The epoch-count bookkeeping of the observation scan. -/

theorem scanBody_invariant (ls : List (List Char)) :
    ∀ st : ObsState,
    (∀ l ∈ ls, ¬(isV2EpochLine l = true ∧ (v2Parse l).isSome = true)) →
    (scanBody st ls).epoch_count =
      st.epoch_count + ls.countP (fun l => isPrefixL ['>'] l) ∧
    (scanBody st ls).first.isSome =
      (st.first.isSome || ls.any (fun l => isPrefixL ['>'] l && (v3Parse l).isSome)) ∧
    (scanBody st ls).last.isSome =
      (st.last.isSome || ls.any (fun l => isPrefixL ['>'] l && (v3Parse l).isSome)) := by
  induction ls with
  | nil => intro st h; simp [scanBody]
  | cons l rest ih =>
      intro st h
      have hrest : ∀ x ∈ rest, ¬(isV2EpochLine x = true ∧ (v2Parse x).isSome = true) :=
        fun x hx => h x (List.mem_cons_of_mem _ hx)
      have hstep : scanBody st (l :: rest) = scanBody (obsStep st l) rest := rfl
      rw [hstep]
      obtain ⟨ihc, ihf, ihl⟩ := ih (obsStep st l) hrest
      rw [ihc, ihf, ihl]
      by_cases hgt : isPrefixL ['>'] l = true
      · cases hv3 : v3Parse l with
        | some t =>
            have hob : obsStep st l =
                recordEpoch { st with in_epoch := true, epoch_count := st.epoch_count + 1 } t := by
              unfold obsStep
              rw [if_pos hgt, hv3]
            rw [hob]
            unfold recordEpoch
            refine ⟨?_, ?_, ?_⟩
            · simp [List.countP_cons, hgt]
              omega
            · cases hsf : st.first <;>
                simp [List.any_cons, hgt, hv3, hsf]
            · simp [List.any_cons, hgt, hv3]
        | none =>
            have hob : obsStep st l =
                { st with in_epoch := true, epoch_count := st.epoch_count + 1 } := by
              unfold obsStep
              rw [if_pos hgt, hv3]
            rw [hob]
            refine ⟨?_, ?_, ?_⟩
            · simp [List.countP_cons, hgt]
              omega
            · simp [List.any_cons, hgt, hv3]
            · simp [List.any_cons, hgt, hv3]
      · have hob : (obsStep st l).epoch_count = st.epoch_count ∧
            (obsStep st l).first = st.first ∧ (obsStep st l).last = st.last := by
          unfold obsStep
          rw [if_neg (by simp [hgt])]
          by_cases hv2 : isV2EpochLine l = true
          · rw [if_pos hv2]
            cases hvp : v2Parse l with
            | some t =>
                exact absurd ⟨hv2, by rw [hvp]; rfl⟩ (h l (by simp))
            | none => exact ⟨rfl, rfl, rfl⟩
          · rw [if_neg hv2]
            by_cases hin : (st.in_epoch && decide (l.length > 3)) = true
            · rw [if_pos hin]
              by_cases hsat : (((pyStrip (l.take 3)).length ≥ 2 : Bool) &&
                  ((pyStrip (l.take 3)).headD ' ').isAlpha) = true
              · simp only [ge_iff_le]
                split <;> exact ⟨rfl, rfl, rfl⟩
              · simp only [ge_iff_le]
                split <;> exact ⟨rfl, rfl, rfl⟩
            · rw [if_neg hin]
              exact ⟨rfl, rfl, rfl⟩
        obtain ⟨hc, hf, hl2⟩ := hob
        rw [hc, hf, hl2]
        refine ⟨?_, ?_, ?_⟩
        · simp [List.countP_cons, hgt]
        · simp [List.any_cons, hgt]
        · simp [List.any_cons, hgt]

theorem finalizeObs_num_epochs (st : ObsState) :
    (finalizeObs st).num_epochs =
      match st.first, st.last with
      | some _, some _ => st.epoch_count
      | _, _ => 0 := by
  unfold finalizeObs
  cases st.first <;> cases st.last <;> simp

/-- Modelled from the claim (C1) wording: the number of `>`-prefixed body
lines whose date/time fields parse successfully. -/
def countSuccessfulV3 (lines : List (List Char)) : ℕ :=
  (bodyLines lines).countP (fun l => isPrefixL ['>'] l && (v3Parse l).isSome)

/-- C1 (amended): on inputs with no successfully-parsed v2.x epoch line,
the reported epoch count equals the number of ALL `>`-prefixed body lines
(not just the successfully parsed ones) whenever at least one `>` line
parses successfully, and 0 otherwise; a `>`-prefixed line whose timestamp
fails to parse still increments the epoch counter and still sets the
in-epoch flag — it only fails to record a timestamp. -/
theorem v3_epoch_count_amended (lines : List (List Char))
    (h : ∀ l ∈ bodyLines lines, ¬(isV2EpochLine l = true ∧ (v2Parse l).isSome = true)) :
    (parse_observation_data lines).num_epochs =
      (if (bodyLines lines).any (fun l => isPrefixL ['>'] l && (v3Parse l).isSome)
       then (bodyLines lines).countP (fun l => isPrefixL ['>'] l) else 0) ∧
    (∀ st : ObsState, ∀ l : List Char, isPrefixL ['>'] l = true → v3Parse l = none →
      obsStep st l = { st with in_epoch := true, epoch_count := st.epoch_count + 1 }) := by
  constructor
  · obtain ⟨hc, hf, hl⟩ := scanBody_invariant (bodyLines lines) initObsState h
    show (finalizeObs (scanBody initObsState (bodyLines lines))).num_epochs = _
    rw [finalizeObs_num_epochs]
    rw [show initObsState.first.isSome = false from rfl, Bool.false_or] at hf
    rw [show initObsState.last.isSome = false from rfl, Bool.false_or] at hl
    by_cases hany : (bodyLines lines).any
        (fun l => isPrefixL ['>'] l && (v3Parse l).isSome) = true
    · rw [if_pos hany]
      rw [hany] at hf hl
      obtain ⟨tf, htf⟩ := Option.isSome_iff_exists.mp hf
      obtain ⟨tl, htl⟩ := Option.isSome_iff_exists.mp hl
      rw [htf, htl, hc]
      simp [initObsState]
    · rw [if_neg hany]
      have hany' : (bodyLines lines).any
          (fun l => isPrefixL ['>'] l && (v3Parse l).isSome) = false := by
        revert hany
        cases (bodyLines lines).any (fun l => isPrefixL ['>'] l && (v3Parse l).isSome) <;>
          simp
      rw [hany'] at hf
      have hnone := Option.not_isSome_iff_eq_none.mp (by rw [hf]; exact Bool.false_ne_true)
      rw [hnone]
  · intro st l hgt hv3
    unfold obsStep
    rw [if_pos hgt, hv3]

/-- Witness for C1 (amended): a body consisting of a single malformed `>`
line — no timestamp ever parses, so the reported epoch count is 0. -/
theorem v3_epoch_count_amended_witness :
    (parse_observation_data [['>']]).num_epochs =
      (if (bodyLines [['>']]).any (fun l => isPrefixL ['>'] l && (v3Parse l).isSome)
       then (bodyLines [['>']]).countP (fun l => isPrefixL ['>'] l) else 0) ∧
    (parse_observation_data [['>']]).num_epochs = 0 :=
  ⟨(v3_epoch_count_amended [['>']] (by decide)).1, by decide⟩

/-- Counterexample for C1 as stated: the body
`["> 2024 1 1 0 0 0.0000000", ">"]` has one `>` line that parses and one
malformed `>` line, yet the reported epoch count is 2, not 1 — the v3
branch increments the counter before its `try` block, so malformed `>`
lines are counted. -/
theorem v3_epoch_count_counterexample :
    (parse_observation_data
      ["> 2024 1 1 0 0 0.0000000".data, ['>']]).num_epochs = 2 ∧
    countSuccessfulV3 ["> 2024 1 1 0 0 0.0000000".data, ['>']] = 1 ∧
    (2 : ℕ) ≠ 1 := by
  have hfp : pyFloatParts ("0.0000000".data) = some ⟨false, 0, -7⟩ := by decide
  have hf : pyFloat ("0.0000000".data) = some 0 := by
    unfold pyFloat
    rw [hfp]
    show some (floatPartsVal ⟨false, 0, -7⟩) = some 0
    norm_num [floatPartsVal]
  have hv3 : v3Parse ("> 2024 1 1 0 0 0.0000000".data) = some ⟨2024, 1, 1, 0, 0, 0⟩ := by
    unfold v3Parse
    rw [show pySplit ("> 2024 1 1 0 0 0.0000000".data) =
      [['>'], "2024".data, ['1'], ['1'], ['0'], ['0'], "0.0000000".data] from by decide]
    rw [if_pos (by decide)]
    rw [show ([['>'], "2024".data, ['1'], ['1'], ['0'], ['0'], "0.0000000".data])[1]! =
      "2024".data from by decide]
    rw [show ([['>'], "2024".data, ['1'], ['1'], ['0'], ['0'], "0.0000000".data])[2]! =
      ['1'] from by decide]
    rw [show ([['>'], "2024".data, ['1'], ['1'], ['0'], ['0'], "0.0000000".data])[3]! =
      ['1'] from by decide]
    rw [show ([['>'], "2024".data, ['1'], ['1'], ['0'], ['0'], "0.0000000".data])[4]! =
      ['0'] from by decide]
    rw [show ([['>'], "2024".data, ['1'], ['1'], ['0'], ['0'], "0.0000000".data])[5]! =
      ['0'] from by decide]
    rw [show ([['>'], "2024".data, ['1'], ['1'], ['0'], ['0'], "0.0000000".data])[6]! =
      "0.0000000".data from by decide]
    rw [hf]
    rw [show pyInt ("2024".data) = some 2024 from by decide]
    rw [show pyInt (['1']) = some 1 from by decide]
    rw [show pyInt (['0']) = some 0 from by decide]
    show mkDatetime 2024 1 1 0 0 (truncZ 0) = some ⟨2024, 1, 1, 0, 0, 0⟩
    rw [show truncZ 0 = (0 : ℤ) from by norm_num [truncZ]]
    decide
  have hstep1 : obsStep initObsState ("> 2024 1 1 0 0 0.0000000".data) =
      { in_epoch := true, first := some ⟨2024, 1, 1, 0, 0, 0⟩,
        last := some ⟨2024, 1, 1, 0, 0, 0⟩, epoch_count := 1,
        epoch_times := [⟨2024, 1, 1, 0, 0, 0⟩], constellations := [] } := by
    unfold obsStep
    rw [if_pos (by decide), hv3]
    rfl
  have hstep2 : obsStep
      { in_epoch := true, first := some ⟨2024, 1, 1, 0, 0, 0⟩,
        last := some ⟨2024, 1, 1, 0, 0, 0⟩, epoch_count := 1,
        epoch_times := [⟨2024, 1, 1, 0, 0, 0⟩], constellations := [] } ['>'] =
      { in_epoch := true, first := some ⟨2024, 1, 1, 0, 0, 0⟩,
        last := some ⟨2024, 1, 1, 0, 0, 0⟩, epoch_count := 2,
        epoch_times := [⟨2024, 1, 1, 0, 0, 0⟩], constellations := [] } := by
    decide
  have hbody : bodyLines ["> 2024 1 1 0 0 0.0000000".data, ['>']] =
      ["> 2024 1 1 0 0 0.0000000".data, ['>']] := by decide
  have hscan : scanBody initObsState (bodyLines ["> 2024 1 1 0 0 0.0000000".data, ['>']]) =
      { in_epoch := true, first := some ⟨2024, 1, 1, 0, 0, 0⟩,
        last := some ⟨2024, 1, 1, 0, 0, 0⟩, epoch_count := 2,
        epoch_times := [⟨2024, 1, 1, 0, 0, 0⟩], constellations := [] } := by
    rw [hbody]
    show obsStep (obsStep initObsState ("> 2024 1 1 0 0 0.0000000".data)) ['>'] = _
    rw [hstep1, hstep2]
  refine ⟨?_, ?_, by decide⟩
  · show (finalizeObs (scanBody initObsState
      (bodyLines ["> 2024 1 1 0 0 0.0000000".data, ['>']]))).num_epochs = 2
    rw [hscan, finalizeObs_num_epochs]
  · unfold countSuccessfulV3
    rw [hbody, List.countP_cons, List.countP_cons, List.countP_nil]
    rw [hv3]
    decide

/-! ## IntervalAnalyzer facts -/

/-- Modelled from the claim (C2) wording: the raw consecutive deltas of the
captured timestamps, before any filtering. -/
def consecDeltas : List Timestamp → List ℚ
  | a :: b :: rest => ((toSecs b - toSecs a : ℤ) : ℚ) :: consecDeltas (b :: rest)
  | _ => []

/-- Integer-valued image of `intervalsOf` (all captured timestamps are
whole seconds), used to evaluate concrete instances. -/
def intervalsZ : List Timestamp → List ℤ
  | a :: b :: rest =>
      let iv := toSecs b - toSecs a
      if 1 ≤ iv ∧ iv ≤ 3600 then iv :: intervalsZ (b :: rest)
      else intervalsZ (b :: rest)
  | _ => []

theorem windowZ (z : ℤ) :
    ((0.001 : ℚ) ≤ (z : ℚ) ∧ (z : ℚ) ≤ 3600) ↔ (1 ≤ z ∧ z ≤ 3600) := by
  have h001 : (0 : ℚ) < 0.001 := by norm_num
  have h011 : (0.001 : ℚ) ≤ 1 := by norm_num
  constructor
  · rintro ⟨h1, h2⟩
    refine ⟨?_, by exact_mod_cast h2⟩
    by_contra hc
    push_neg at hc
    have hz0 : z ≤ 0 := by omega
    have : (z : ℚ) ≤ 0 := by exact_mod_cast hz0
    linarith
  · rintro ⟨h1, h2⟩
    have : (1 : ℚ) ≤ (z : ℚ) := by exact_mod_cast h1
    exact ⟨by linarith, by exact_mod_cast h2⟩

theorem intervalsOf_eq_filter (ts : List Timestamp) :
    intervalsOf ts =
      (consecDeltas ts).filter (fun d => decide ((0.001 : ℚ) ≤ d ∧ d ≤ 3600)) := by
  induction ts with
  | nil => rfl
  | cons a rest ih =>
      cases rest with
      | nil => rfl
      | cons b r2 =>
          show intervalsOf (a :: b :: r2) = _
          unfold intervalsOf
          rw [show consecDeltas (a :: b :: r2) =
            ((toSecs b - toSecs a : ℤ) : ℚ) :: consecDeltas (b :: r2) from rfl]
          rw [List.filter_cons]
          by_cases hc : (0.001 : ℚ) ≤ ((toSecs b - toSecs a : ℤ) : ℚ) ∧
              ((toSecs b - toSecs a : ℤ) : ℚ) ≤ 3600
          · rw [if_pos hc, if_pos (by simpa using hc)]
            rw [ih]
          · rw [if_neg hc, if_neg (by simpa using hc)]
            rw [ih]

theorem intervalsOf_eq_map_intervalsZ (ts : List Timestamp) :
    intervalsOf ts = (intervalsZ ts).map (fun z : ℤ => (z : ℚ)) := by
  induction ts with
  | nil => rfl
  | cons a rest ih =>
      cases rest with
      | nil => rfl
      | cons b r2 =>
          show intervalsOf (a :: b :: r2) = _
          unfold intervalsOf intervalsZ
          by_cases hc : 1 ≤ toSecs b - toSecs a ∧ toSecs b - toSecs a ≤ 3600
          · rw [if_pos ((windowZ _).mpr hc), if_pos hc]
            rw [List.map_cons, ih]
          · rw [if_neg (fun hq => hc ((windowZ _).mp hq)), if_neg hc]
            exact ih

/-- The eleven captured epoch timestamps of the claim's golden instance:
ten one-second steps would give nine 1.000 s deltas; the final timestamp
jumps 7200 s (two hours) ahead. -/
def goldenEpochs : List Timestamp :=
  [⟨2024, 1, 1, 0, 0, 0⟩, ⟨2024, 1, 1, 0, 0, 1⟩, ⟨2024, 1, 1, 0, 0, 2⟩,
   ⟨2024, 1, 1, 0, 0, 3⟩, ⟨2024, 1, 1, 0, 0, 4⟩, ⟨2024, 1, 1, 0, 0, 5⟩,
   ⟨2024, 1, 1, 0, 0, 6⟩, ⟨2024, 1, 1, 0, 0, 7⟩, ⟨2024, 1, 1, 0, 0, 8⟩,
   ⟨2024, 1, 1, 0, 0, 9⟩, ⟨2024, 1, 1, 2, 0, 9⟩]

/-- Evaluation form of `calcInterval` once the filtered deltas are known. -/
theorem calcInterval_eval (ts : List Timestamp) (L : List ℚ)
    (hlen : ts.length ≥ 2) (hio : intervalsOf ts = L) (hne : L.isEmpty = false) :
    calcInterval ts =
      (if listMax L - listMin L < (0.01 : ℚ) * (listSum L / (L.length : ℚ)) then
        (some (format3 (listSum L / (L.length : ℚ))), some true)
      else
        (some (format3 (listSum L / (L.length : ℚ)) ++ " (range: ".data ++
          format3 (listMin L) ++ "-".data ++ format3 (listMax L) ++ ")".data),
          some false)) := by
  unfold calcInterval
  rw [if_pos hlen, hio]
  simp only [hne, Bool.false_eq_true, if_false]

/-- C2: the interval summary uses only consecutive deltas inside the
inclusive window `[0.001, 3600]` seconds (`intervalsOf` is exactly the
window filter of the raw consecutive deltas); no summary is produced with
fewer than two timestamps or when no delta survives the filter; and on the
golden sequence with nine 1.000 s deltas and one 7200 s outlier, the
summary is built from only the nine 1.000 s deltas, with consistency true
and rendered value `"1.000"`. -/
theorem interval_analyzer_window :
    (∀ ts : List Timestamp, intervalsOf ts =
      (consecDeltas ts).filter (fun d => decide ((0.001 : ℚ) ≤ d ∧ d ≤ 3600))) ∧
    (∀ ts : List Timestamp,
      (calcInterval ts).1 = none ↔ (ts.length < 2 ∨ intervalsOf ts = [])) ∧
    intervalsOf goldenEpochs = List.replicate 9 (1 : ℚ) ∧
    calcInterval goldenEpochs = (some ("1.000".data), some true) := by
  have hio : intervalsOf goldenEpochs = List.replicate 9 (1 : ℚ) := by
    rw [intervalsOf_eq_map_intervalsZ]
    rw [show intervalsZ goldenEpochs = List.replicate 9 (1 : ℤ) from by decide]
    norm_num
  refine ⟨intervalsOf_eq_filter, ?_, hio, ?_⟩
  · intro ts
    unfold calcInterval
    by_cases hlen : ts.length ≥ 2
    · rw [if_pos hlen]
      by_cases hemp : (intervalsOf ts).isEmpty = true
      · rw [if_pos hemp]
        simp only [true_iff]
        exact Or.inr (List.isEmpty_iff.mp hemp)
      · rw [if_neg hemp]
        have hne : intervalsOf ts ≠ [] := by
          intro hcon
          exact hemp (by rw [hcon]; rfl)
        by_cases hcons : listMax (intervalsOf ts) - listMin (intervalsOf ts) <
            (0.01 : ℚ) * (listSum (intervalsOf ts) / (intervalsOf ts).length)
        · rw [if_pos hcons]
          simp only [reduceCtorEq, false_iff, not_or]
          exact ⟨by omega, hne⟩
        · rw [if_neg hcons]
          simp only [reduceCtorEq, false_iff, not_or]
          exact ⟨by omega, hne⟩
    · rw [if_neg hlen]
      simp only [true_iff]
      exact Or.inl (by omega)
  · have hlen : goldenEpochs.length ≥ 2 := by decide
    have hfmt : format3 1 = "1.000".data := by
      unfold format3
      rw [if_neg (by norm_num)]
      unfold format3.format3core
      rw [show roundHalfEven ((1 : ℚ) * 1000) = 1000 from by
        unfold roundHalfEven
        norm_num]
      decide
    have hmin : listMin (List.replicate 9 (1 : ℚ)) = 1 := by
      norm_num [listMin, List.replicate, List.foldl]
    have hmax : listMax (List.replicate 9 (1 : ℚ)) = 1 := by
      norm_num [listMax, List.replicate, List.foldl]
    have hsum : listSum (List.replicate 9 (1 : ℚ)) = 9 := by
      norm_num [listSum, List.replicate, List.foldl]
    have havg : listSum (List.replicate 9 (1 : ℚ)) /
        ((List.replicate 9 (1 : ℚ)).length : ℚ) = 1 := by
      rw [hsum]
      norm_num
    rw [calcInterval_eval goldenEpochs (List.replicate 9 (1 : ℚ)) hlen hio (by decide)]
    rw [havg, hmin, hmax, hfmt]
    rw [if_pos (by norm_num)]
